import Mathlib

/-!
Verification of the StoryForge pipeline (a topic-to-narrated-video generator).

The Python sources are shallowly embedded: loosely typed Python values become
the inductive `PVal`, floats become `ℚ`, fallible external calls (LLM, TTS,
transcription, Pexels search) become explicit environment records quantified
over in the theorems, and every function is a total Lean `def` transcribed
from the corresponding Python definition.
-/

namespace StoryForge

/-- Characters Python treats as whitespace for `str.strip` / `str.split` /
the regex class `\s` (space, tab, newline, carriage return, vertical tab,
form feed). -/
def pyIsSpace (c : Char) : Bool :=
  c == ' ' || c == '\t' || c == '\n' || c == '\r' || c == Char.ofNat 11 || c == Char.ofNat 12

/-- Strip `pyIsSpace` characters from both ends of a character list,
modelling Python `str.strip()`. -/
def stripList (l : List Char) : List Char :=
  ((l.dropWhile pyIsSpace).reverse.dropWhile pyIsSpace).reverse

/-- Python `str.strip()`. -/
def pystrip (s : String) : String :=
  ⟨stripList s.data⟩

/-- Loosely typed Python values as they flow through the pipeline:
`None`, booleans, numbers (int and float collapsed into `ℚ`), strings,
lists and tuples. -/
inductive PVal where
  | pnone
  | pbool (b : Bool)
  | pnum (q : ℚ)
  | pstr (s : String)
  | plist (xs : List PVal)
  | ptuple (xs : List PVal)

/-- Python truthiness (`bool(x)`): `None`, `False`, `0`, `""`, `[]`, `()`
are falsy; everything else is truthy. -/
def pyTruthy : PVal → Bool
  | .pnone => false
  | .pbool b => b
  | .pnum q => if q = 0 then false else true
  | .pstr s => if s = "" then false else true
  | .plist [] => false
  | .plist (_ :: _) => true
  | .ptuple [] => false
  | .ptuple (_ :: _) => true

/-- The apostrophe character (used by Python `repr` of strings). -/
def aposChar : Char := Char.ofNat 39

/-- The double-quote character. -/
def quoteChar : Char := Char.ofNat 34

/-- Rendering of a number as Python would print it.  Python prints floats
in decimal notation; since binary floats are modelled by `ℚ`, the exact
digit string is abstracted to a numerator/denominator rendering.  What the
proofs rely on is only that the rendering is produced by `toString` on
integers, hence never empty and free of surrounding whitespace. -/
def ratStr (q : ℚ) : String :=
  if q.den = 1 then toString q.num else toString q.num ++ "/" ++ toString q.den

mutual
/-- Python `repr` of a value (string elements are quoted; containers render
their elements with `repr`, matching CPython). -/
def pyRepr : PVal → String
  | .pnone => "None"
  | .pbool true => "True"
  | .pbool false => "False"
  | .pnum q => ratStr q
  | .pstr s => String.singleton aposChar ++ s ++ String.singleton aposChar
  | .plist xs => "[" ++ pyReprJoin xs ++ "]"
  | .ptuple [x] => "(" ++ pyRepr x ++ ",)"
  | .ptuple xs => "(" ++ pyReprJoin xs ++ ")"

/-- Comma-separated `repr` of the elements of a container. -/
def pyReprJoin : List PVal → String
  | [] => ""
  | [x] => pyRepr x
  | x :: y :: rest => pyRepr x ++ ", " ++ pyReprJoin (y :: rest)
end

/-- Python `str(x)`: identical to `repr(x)` except on strings, where it is
the string itself. -/
def pyStr : PVal → String
  | .pstr s => s
  | v => pyRepr v

/-- Value of a digit string (most significant first). -/
def digitsToNat (l : List Char) : Nat :=
  l.foldl (fun acc c => 10 * acc + (c.toNat - 48)) 0

/-- Parse an optional sign, returning `true` for a leading minus together
with the remaining characters. -/
def parseSign : List Char → Bool × List Char
  | '-' :: rest => (true, rest)
  | '+' :: rest => (false, rest)
  | l => (false, l)

/-- Parse an unsigned decimal literal (`digits`, `digits.digits?` or
`.digits`), returning its value and the remaining characters. -/
def parseUnsigned? (l : List Char) : Option (ℚ × List Char) :=
  let intPart := l.takeWhile Char.isDigit
  let rest := l.dropWhile Char.isDigit
  match rest with
  | '.' :: rest2 =>
    let fracPart := rest2.takeWhile Char.isDigit
    let rest3 := rest2.dropWhile Char.isDigit
    if intPart = [] ∧ fracPart = [] then none
    else some ((digitsToNat intPart : ℚ) + (digitsToNat fracPart : ℚ) / ((10 : ℚ) ^ fracPart.length), rest3)
  | _ => if intPart = [] then none else some ((digitsToNat intPart : ℚ), rest)

/-- Python `float(s)` on a string: surrounding whitespace is stripped, then
an optional sign, a decimal literal and an optional exponent are parsed.
(The special forms `inf`/`nan` and underscore separators are not modelled;
no claim depends on them.) -/
def pyFloatOfString? (s : String) : Option ℚ :=
  let l := stripList s.data
  let sr := parseSign l
  match parseUnsigned? sr.2 with
  | none => none
  | some (m, rest) =>
    let v := if sr.1 then -m else m
    match rest with
    | [] => some v
    | c :: r2 =>
      if c = 'e' ∨ c = 'E' then
        let er := parseSign r2
        let ed := er.2.takeWhile Char.isDigit
        let r4 := er.2.dropWhile Char.isDigit
        if ed = [] ∨ r4 ≠ [] then none
        else
          let e : ℚ := (10 : ℚ) ^ digitsToNat ed
          some (if er.1 then v / e else v * e)
      else none

/-- Python `float(x)`: numbers pass through, booleans become `0`/`1`,
strings are parsed, and every other type raises `TypeError` (modelled as
`none`). -/
def pyFloat? : PVal → Option ℚ
  | .pnum q => some q
  | .pbool b => some (if b then 1 else 0)
  | .pstr s => pyFloatOfString? s
  | _ => none

/-! ### timed_captions_generator.validate_caption_format -/

/-- `caption[2] if len(caption) > 2 else "white"`, where `rest` is the part
of the caption after its first two components. -/
def colorOf : List PVal → PVal
  | c :: _ => c
  | [] => .pstr "white"

/-- Conversion and text normalisation inside `validate_caption_format`
once the first two time components `a`, `b` have been extracted:
`start_time = float(a)`, `end_time = float(b)` (a failure raises and the
caption is skipped), `text = str(text).strip()` and must be non-empty. -/
def validateTimes (a b text : PVal) (rest : List PVal) : Option PVal :=
  match pyFloat? a, pyFloat? b with
  | some s, some e =>
    if pystrip (pyStr text) = "" then none
    else some (.ptuple [.ptuple [.pnum s, .pnum e], .pstr (pystrip (pyStr text)), colorOf rest])
  | _, _ => none

/-- Body of the `validate_caption_format` loop for one caption that passed
the `isinstance(caption, (tuple, list)) and len(caption) >= 2` check:
`time_info = caption[0]` must itself be a tuple/list of length at least 2
(otherwise the caption is skipped). -/
def validateCore (time_info text : PVal) (rest : List PVal) : Option PVal :=
  match time_info with
  | .plist (a :: b :: _) => validateTimes a b text rest
  | .ptuple (a :: b :: _) => validateTimes a b text rest
  | _ => none

/-- One iteration of `validate_caption_format`: captions that are not a
tuple/list of length at least 2 are skipped. -/
def validateOne : PVal → Option PVal
  | .plist (time_info :: text :: rest) => validateCore time_info text rest
  | .ptuple (time_info :: text :: rest) => validateCore time_info text rest
  | _ => none

/-- `validate_caption_format(captions)` from
`utility/captions/timed_captions_generator.py`: keeps, in order, the
captions that validate, each normalised to `((start, end), text, color)`. -/
def validate_caption_format : List PVal → List PVal
  | [] => []
  | c :: rest =>
    match validateOne c with
    | some v => v :: validate_caption_format rest
    | none => validate_caption_format rest

/-! ### timed_captions_generator.generate_timed_captions -/

/-- Environment for one run of `generate_timed_captions`: the filesystem
checks on the audio file and the outcome of each transcription method
(`error` models a raised exception, `ok` the returned caption list). -/
structure CapEnv where
  fileExists : Bool
  fileSizeZero : Bool
  fasterWhisperR : Except Unit (List PVal)
  wav2vec2R : Except Unit (List PVal)
  voskR : Except Unit (List PVal)
  basicWhisperR : Except Unit (List PVal)

/-- Outcome of the transcription method with the given name. -/
def methodOutcome (env : CapEnv) : String → Except Unit (List PVal)
  | "faster-whisper" => env.fasterWhisperR
  | "wav2vec2" => env.wav2vec2R
  | "vosk" => env.voskR
  | "basic-whisper" => env.basicWhisperR
  | _ => .error ()

/-- The `methods` list of `generate_timed_captions`, in order of
preference. -/
def baseMethods : List String :=
  ["faster-whisper", "wav2vec2", "vosk", "basic-whisper"]

/-- The reordering
`[(m, f) for m, f in methods if m == method] + [(m, f) for m, f in methods if m != method]`
applied when a specific method is requested. -/
def orderedMethods (method : String) : List String :=
  if method ≠ "faster-whisper" then
    baseMethods.filter (fun m => m == method) ++ baseMethods.filter (fun m => m != method)
  else baseMethods

/-- The `for method_name, method_func in methods` loop: a raising method is
skipped (`except ... continue`), a method returning a falsy (empty) list is
skipped, and the first non-empty caption list is validated and returned. -/
def tryMethods (env : CapEnv) : List String → List PVal
  | [] => []
  | m :: rest =>
    match methodOutcome env m with
    | .error _ => tryMethods env rest
    | .ok caps =>
      match caps with
      | [] => tryMethods env rest
      | _ :: _ => validate_caption_format caps

/-- `generate_timed_captions(audio_filename, ..., method)` from
`utility/captions/timed_captions_generator.py`: returns `[]` when the audio
file is missing or empty, otherwise tries the (re-ordered) methods in turn,
returning `[]` when all of them fail. -/
def generate_timed_captions (env : CapEnv) (method : String) : List PVal :=
  if ¬ env.fileExists then []
  else if env.fileSizeZero then []
  else tryMethods env (orderedMethods method)

/-! ### audio_generator.generate_audio -/

/-- Python `str.split()` with no argument: split on runs of whitespace,
dropping empty fields.  `cur` accumulates the current word reversed. -/
def wordsGo (cur : List Char) : List Char → List (List Char)
  | [] => if cur = [] then [] else [cur.reverse]
  | c :: cs =>
    if pyIsSpace c then
      if cur = [] then wordsGo [] cs else cur.reverse :: wordsGo [] cs
    else wordsGo (c :: cur) cs

/-- `' '.join(text.split())`: whitespace normalisation in
`generate_audio`. -/
def pyJoinSplit (s : String) : String :=
  String.intercalate " " ((wordsGo [] s.data).map String.mk)

/-- `isinstance(x, str)`. -/
def isStrPV : PVal → Bool
  | .pstr _ => true
  | _ => false

/-- The input validation and text cleaning at the top of `generate_audio`:
a falsy or non-string input is replaced by the fixed apology text, the
result is `str(...).strip()`-ed, an empty result is replaced by the default
test message, then `"` becomes `'`, newlines and carriage returns become
spaces, and whitespace is normalised with `' '.join(text.split())`. -/
def processText (text0 : PVal) : String :=
  let t1 : PVal :=
    if pyTruthy text0 && isStrPV text0 then text0
    else .pstr "Sorry, there was an issue with the story content."
  let t2 := pystrip (pyStr t1)
  let t3 := if t2.length = 0 then "This is a StoryForge audio test message." else t2
  let t4 : String := ⟨t3.data.map (fun c =>
    if c = quoteChar then aposChar
    else if c = '\n' then ' '
    else if c = '\r' then ' '
    else c)⟩
  pyJoinSplit t4

/-- One construction of an `edge_tts.Communicate` object: the text and the
voice passed to it (the primary call also passes neutral rate/volume/pitch
settings, which carry no information). -/
structure TtsAttempt where
  text : String
  voice : String
deriving DecidableEq

/-- External outcomes of one run of `generate_audio`: whether each
`Communicate` construction and each awaited `save` raises, and whether the
output file exists with positive size after each save attempt. -/
structure AudioEnv where
  primaryCtorOk : Bool
  primarySaveOk : Bool
  fileOkPrimary : Bool
  fallbackCtorOk : Bool
  fallbackSaveOk : Bool
  fileOkFallback : Bool
deriving DecidableEq

/-- Observable result of a `generate_audio` run: the returned boolean, the
`Communicate` constructions performed, and how many times the
`await communicate.save(filename)` expression was executed. -/
structure AudioRun where
  returnValue : Bool
  attempts : List TtsAttempt
  saveAwaits : Nat
deriving DecidableEq

/-- The fixed fallback text used by the retry branch of
`generate_audio`. -/
def audioFallbackText : String :=
  "StoryForge encountered an audio generation error. Please check your internet connection."

/-- The `except` branch of `generate_audio`: one retry with
`fallback_text` and the voice `en-US-AriaNeural`; returns `True` only when
the fallback save completes and the file exists with positive size. -/
def fallbackRun (atts : List TtsAttempt) (saves : Nat) (env : AudioEnv) : AudioRun :=
  if ¬ env.fallbackCtorOk then ⟨false, atts ++ [⟨audioFallbackText, "en-US-AriaNeural"⟩], saves⟩
  else if ¬ env.fallbackSaveOk then
    ⟨false, atts ++ [⟨audioFallbackText, "en-US-AriaNeural"⟩], saves + 1⟩
  else ⟨env.fileOkFallback, atts ++ [⟨audioFallbackText, "en-US-AriaNeural"⟩], saves + 1⟩

/-- `generate_audio(text, filename)` from
`utility/audio/audio_generator.py`: primary synthesis with voice
`en-US-GuyNeural`; any exception in it (constructor or awaited save)
triggers the fallback branch; with no exception the function returns
whether the output file exists with positive size. -/
def generate_audio (text0 : PVal) (env : AudioEnv) : AudioRun :=
  if ¬ env.primaryCtorOk then fallbackRun [⟨processText text0, "en-US-GuyNeural"⟩] 0 env
  else if ¬ env.primarySaveOk then fallbackRun [⟨processText text0, "en-US-GuyNeural"⟩] 1 env
  else ⟨env.fileOkPrimary, [⟨processText text0, "en-US-GuyNeural"⟩], 1⟩

/-! ### background_video_generator: getBestVideo and generate_video_url -/

/-- One entry of a Pexels `video_files` array: `link` may be absent,
`width`/`height` default to `0` when absent (`video_file.get('width', 0)`),
so an absent dimension and an explicit `0` coincide, exactly as the code
treats them. -/
structure VideoFile where
  link : Option String
  width : ℚ
  height : ℚ
deriving DecidableEq

/-- One entry of a Pexels `videos` array, with the fields the code reads:
`width`/`height`/`duration` via `.get` with defaults `0`, `0`, `12`, and
the optional `video_files` list (`'video_files' not in video` skips the
record). -/
structure Video where
  width : ℚ
  height : ℚ
  duration : ℚ
  video_files : Option (List VideoFile)
deriving DecidableEq

/-- Python `int()` truncation toward zero on a numeric value. -/
def pyInt (q : ℚ) : Int :=
  if q < 0 then q.ceil else q.floor

/-- Stable insertion of `x` after the existing elements `y` with
`le y x`. -/
def insertSorted {α : Type} (le : α → α → Bool) (x : α) : List α → List α
  | [] => [x]
  | y :: ys => if le y x then y :: insertSorted le x ys else x :: y :: ys

/-- Left-to-right insertion pass. -/
def insertionSortGo {α : Type} (le : α → α → Bool) (acc : List α) : List α → List α
  | [] => acc
  | x :: xs => insertionSortGo le (insertSorted le x acc) xs

/-- Python's stable `sorted` with respect to the stays-before relation
`le` (`le y x` means an earlier `y` keeps its place before a later `x`).
Only stability and the permutation property matter to the claims, so a
stable insertion sort stands in for timsort. -/
def pySorted {α : Type} (le : α → α → Bool) (l : List α) : List α :=
  insertionSortGo le [] l

/-- Stays-before relation for
`sorted(filtered_videos, key=lambda x: abs(12 - int(x.get('duration', 12))))`:
ascending stable sort by distance of the integer duration from 12. -/
def durStaysLe (v w : Video) : Bool :=
  (12 - pyInt v.duration).natAbs ≤ (12 - pyInt w.duration).natAbs

/-- The quality key for a video file in portrait mode:
`(height * width, abs(1920 - height), abs(1080 - width))`. -/
def qualityKeyPortrait (f : VideoFile) : ℚ × ℚ × ℚ :=
  (f.height * f.width, |1920 - f.height|, |1080 - f.width|)

/-- The quality key for a video file in landscape mode:
`(height * width, abs(1920 - width), abs(1080 - height))`. -/
def qualityKeyLandscape (f : VideoFile) : ℚ × ℚ × ℚ :=
  (f.height * f.width, |1920 - f.width|, |1080 - f.height|)

/-- Lexicographic `≥` on key triples, the stays-before relation of a
stable `sorted(..., reverse=True)`. -/
def lexGe (a b : ℚ × ℚ × ℚ) : Bool :=
  if a.1 > b.1 then true
  else if a.1 = b.1 then
    if a.2.1 > b.2.1 then true
    else if a.2.1 = b.2.1 then decide (a.2.2 ≥ b.2.2)
    else false
  else false

/-- Stays-before relation for the `video_files` quality sort. -/
def fileStaysLe (portrait : Bool) (f g : VideoFile) : Bool :=
  if portrait then lexGe (qualityKeyPortrait f) (qualityKeyPortrait g)
  else lexGe (qualityKeyLandscape f) (qualityKeyLandscape g)

/-- The strict portrait record filter of `getBestVideo`:
`height >= 1080 and width >= 720 and 1.5 <= height / width <= 2.0` (after
`width > 0 and height > 0`). -/
def portraitRecOk (v : Video) : Bool :=
  decide (v.width > 0 ∧ v.height > 0 ∧ v.height ≥ 1080 ∧ v.width ≥ 720 ∧
    (3 / 2 : ℚ) ≤ v.height / v.width ∧ v.height / v.width ≤ 2)

/-- The strict landscape record filter of `getBestVideo`. -/
def landscapeRecOk (v : Video) : Bool :=
  decide (v.width > 0 ∧ v.height > 0 ∧ v.width ≥ 1920 ∧ v.height ≥ 1080 ∧
    (3 / 2 : ℚ) ≤ v.width / v.height ∧ v.width / v.height ≤ 2)

/-- The relaxed fallback record filter of `getBestVideo`. -/
def fallbackRecOk (portrait : Bool) (v : Video) : Bool :=
  if portrait then decide (v.height > v.width ∧ v.height ≥ 720)
  else decide (v.width > v.height ∧ v.width ≥ 1280)

/-- The characters of the substring `.hd`. -/
def hdPat : List Char := ['.', 'h', 'd']

/-- Prefix of `l` before the first occurrence of `pat`, or `none` when
`pat` does not occur. -/
def beforeFirst (pat : List Char) : List Char → Option (List Char)
  | [] => none
  | c :: rest =>
    if pat.isPrefixOf (c :: rest) then some []
    else
      match beforeFirst pat rest with
      | some pre => some (c :: pre)
      | none => none

/-- `url.split('.hd')[0] if '.hd' in url else url`: the de-duplication key
for video links. -/
def stripHd (s : String) : String :=
  match beforeFirst hdPat s.data with
  | some pre => ⟨pre⟩
  | none => s

/-- The inner `for video_file in video_files` loop of `getBestVideo`: skip
files without a `link`, with a non-positive dimension, or whose
`.hd`-stripped link is already used; return the first link meeting the
orientation quality bar. -/
def pickFile (portrait : Bool) (used : List String) : List VideoFile → Option String
  | [] => none
  | ⟨none, _, _⟩ :: rest => pickFile portrait used rest
  | ⟨some l, w, ht⟩ :: rest =>
    if w ≤ 0 ∨ ht ≤ 0 then pickFile portrait used rest
    else if stripHd l ∈ used then pickFile portrait used rest
    else if portrait then
      if ht > w ∧ ht ≥ 720 then some l else pickFile portrait used rest
    else
      if w > ht ∧ w ≥ 1280 then some l else pickFile portrait used rest

/-- The outer `for video in sorted_videos` loop of `getBestVideo`: records
without `video_files` are skipped; each file list is quality-sorted before
the file scan. -/
def pickVideos (portrait : Bool) (used : List String) : List Video → Option String
  | [] => none
  | ⟨_, _, _, none⟩ :: rest => pickVideos portrait used rest
  | ⟨_, _, _, some fs⟩ :: rest =>
    match pickFile portrait used (pySorted (fileStaysLe portrait) fs) with
    | some url => some url
    | none => pickVideos portrait used rest

/-- Record filtering of `getBestVideo`: the strict orientation filter,
then on an empty result the relaxed fallback filter. -/
def chooseFiltered (portrait : Bool) (videos : List Video) : List Video :=
  match videos.filter (fun v => if portrait then portraitRecOk v else landscapeRecOk v) with
  | [] => videos.filter (fallbackRecOk portrait)
  | v :: vs => v :: vs

/-- `getBestVideo(query_string, orientation_portrait, used_vids)` from
`utility/video/background_video_generator.py`.  `resp` is the `videos`
field of the search response (`none` models a response without a `videos`
key; a missing API key or request error yields `some []`).  Returns `None`
when the response is empty, when both record filters are empty, or when no
file qualifies. -/
def getBestVideo : Option (List Video) → Bool → List String → Option String
  | none, _, _ => none
  | some [], _, _ => none
  | some (v0 :: vs0), portrait, used =>
    match chooseFiltered portrait (v0 :: vs0) with
    | [] => none
    | v :: vs => pickVideos portrait used (pySorted durStaysLe (v :: vs))

/-- `isinstance(x, list)`. -/
def isListPV : PVal → Bool
  | .plist _ => true
  | _ => false

/-- The `for j, query in enumerate(search_terms)` loop of
`generate_video_url`: non-string or falsy queries are skipped, queries are
stripped (and skipped when empty), and the first query for which
`getBestVideo` finds a link stops the loop; the `.hd`-stripped link is
appended to `used_links`.  Returns the found url (or `None`) and the
updated `used_links`. -/
def tryTerms (env : String → Option (List Video)) (up : Bool) (used : List String) :
    List PVal → PVal × List String
  | [] => (.pnone, used)
  | .pstr s :: qrest =>
    if s = "" then tryTerms env up used qrest
    else if pystrip s = "" then tryTerms env up used qrest
    else
      match getBestVideo (env (pystrip s)) up used with
      | some url => (.pstr url, used ++ [stripHd url])
      | none => tryTerms env up used qrest
  | .pnone :: qrest => tryTerms env up used qrest
  | .pbool _ :: qrest => tryTerms env up used qrest
  | .pnum _ :: qrest => tryTerms env up used qrest
  | .plist _ :: qrest => tryTerms env up used qrest
  | .ptuple _ :: qrest => tryTerms env up used qrest

/-- Search-term validation of the pexel loop: a non-list or empty
search-term list yields `[[t1, t2], None]`; otherwise the terms are tried
in order. -/
def processTerms (env : String → Option (List Video)) (up : Bool) (used : List String)
    (t1 t2 : ℚ) : PVal → PVal × List String
  | .plist [] => (.plist [.plist [.pnum t1, .pnum t2], .pnone], used)
  | .plist (q :: qs) =>
    (.plist [.plist [.pnum t1, .pnum t2], (tryTerms env up used (q :: qs)).1],
     (tryTerms env up used (q :: qs)).2)
  | _ => (.plist [.plist [.pnum t1, .pnum t2], .pnone], used)

/-- The time-segment conversion `t1, t2 = float(t1), float(t2)` of the
pexel loop: a conversion failure gives the placeholder entry. -/
def processTimes (env : String → Option (List Video)) (up : Bool) (used : List String)
    (t1v t2v terms : PVal) : PVal × List String :=
  match pyFloat? t1v, pyFloat? t2v with
  | some t1, some t2 => processTerms env up used t1 t2 terms
  | _, _ => (.plist [.plist [.pnum (-1), .pnum (-1)], .pnone], used)

/-- The time-segment validation of the pexel loop: a time segment that is
not a two-element list gives the placeholder `[[-1, -1], None]`. -/
def processSegment (env : String → Option (List Video)) (up : Bool) (used : List String) :
    PVal → PVal → PVal × List String
  | .plist [t1v, t2v], terms => processTimes env up used t1v t2v terms
  | _, _ => (.plist [.plist [.pnum (-1), .pnum (-1)], .pnone], used)

/-- One iteration of the `for i, search_data in enumerate(...)` loop of
`generate_video_url` (pexel branch): an item that is not a two-element
list gets the placeholder `[[-1, -1], None]`. -/
def processItem (env : String → Option (List Video)) (up : Bool) (used : List String) :
    PVal → PVal × List String
  | .plist [ts, terms] => processSegment env up used ts terms
  | _ => (.plist [.plist [.pnum (-1), .pnum (-1)], .pnone], used)

/-- The pexel branch loop of `generate_video_url`: every item appends
exactly one entry, threading `used_links` left to right. -/
def pexelLoop (env : String → Option (List Video)) (up : Bool) (used : List String) :
    List PVal → List PVal
  | [] => []
  | sd :: rest =>
    (processItem env up used sd).1 ::
      pexelLoop env up (processItem env up used sd).2 rest

/-- `generate_video_url(timed_video_searches, video_server, orientation)`
from `utility/video/background_video_generator.py`.  `None`, falsy and
non-list inputs return `[]` (the source checks `is None`, truthiness and
`isinstance(..., list)` in that order; the cases collapse to: only a
non-empty Python list proceeds).  The `stable_diffusion` branch returns
`[]` because `get_images_for_video` is not defined in the module, and an
unknown server returns `[]`. -/
def generate_video_url :
    PVal → String → String → (String → Option (List Video)) → List PVal
  | .plist [], _, _, _ => []
  | .plist (x :: xs), video_server, orientation, env =>
    if video_server = "pexel" then pexelLoop env (orientation = "portrait") [] (x :: xs)
    else if video_server = "stable_diffusion" then []
    else []
  | _, _, _, _ => []

/-! ### safe_unpack (app.py) and safe_unpack (video_search_query_generator.py) -/

/-- `safe_unpack(data, expected_count, default_values)` from `app.py`
("Enhanced version").  `default_values` is `None` or a list; the guard
`default_values and len(default_values) == expected_count` requires a
truthy (non-empty) list of exactly the expected length.  The returned
Python tuple is modelled by the list of its components.  With these
argument types no branch raises, so the final `except` branch is
unreachable. -/
def app_safe_unpack (data : PVal) (expected_count : Nat)
    (default_values : Option (List PVal)) : List PVal :=
  match data with
  | .pnone =>
    match default_values with
    | some (d :: ds) =>
      if (d :: ds).length = expected_count then d :: ds
      else List.replicate expected_count .pnone
    | _ => List.replicate expected_count .pnone
  | .plist xs =>
    if xs.length = expected_count then xs
    else if xs.length > expected_count then xs.take expected_count
    else
      match default_values with
      | some (d :: ds) =>
        if (d :: ds).length = expected_count then
          (xs ++ (d :: ds).drop xs.length).take expected_count
        else xs ++ List.replicate (expected_count - xs.length) .pnone
      | _ => xs ++ List.replicate (expected_count - xs.length) .pnone
  | .ptuple xs =>
    if xs.length = expected_count then xs
    else if xs.length > expected_count then xs.take expected_count
    else
      match default_values with
      | some (d :: ds) =>
        if (d :: ds).length = expected_count then
          (xs ++ (d :: ds).drop xs.length).take expected_count
        else xs ++ List.replicate (expected_count - xs.length) .pnone
      | _ => xs ++ List.replicate (expected_count - xs.length) .pnone
  | _ =>
    match default_values with
    | some (d :: ds) =>
      if (d :: ds).length = expected_count then d :: ds
      else List.replicate expected_count .pnone
    | _ => List.replicate expected_count .pnone

/-- `safe_unpack(data, expected_count, default_values)` from
`utility/video/video_search_query_generator.py` ("Enhanced version"),
transcribed from its own source text: `None` data yields defaults or
`None`-padding, a tuple/list is truncated or default-filled or
`None`-padded to the expected count, non-iterable data yields defaults or
`None`-padding. -/
def vsq_safe_unpack (data : PVal) (expected_count : Nat)
    (default_values : Option (List PVal)) : List PVal :=
  match data with
  | .pnone =>
    match default_values with
    | some (d :: ds) =>
      if (d :: ds).length = expected_count then d :: ds
      else List.replicate expected_count .pnone
    | _ => List.replicate expected_count .pnone
  | .plist xs =>
    if xs.length = expected_count then xs
    else if xs.length > expected_count then xs.take expected_count
    else
      match default_values with
      | some (d :: ds) =>
        if (d :: ds).length = expected_count then
          (xs ++ (d :: ds).drop xs.length).take expected_count
        else xs ++ List.replicate (expected_count - xs.length) .pnone
      | _ => xs ++ List.replicate (expected_count - xs.length) .pnone
  | .ptuple xs =>
    if xs.length = expected_count then xs
    else if xs.length > expected_count then xs.take expected_count
    else
      match default_values with
      | some (d :: ds) =>
        if (d :: ds).length = expected_count then
          (xs ++ (d :: ds).drop xs.length).take expected_count
        else xs ++ List.replicate (expected_count - xs.length) .pnone
      | _ => xs ++ List.replicate (expected_count - xs.length) .pnone
  | _ =>
    match default_values with
    | some (d :: ds) =>
      if (d :: ds).length = expected_count then d :: ds
      else List.replicate expected_count .pnone
    | _ => List.replicate expected_count .pnone

/-! ### script_generator.generate_script -/

/-- JSON values as returned by `json.loads`. -/
inductive Json where
  | null
  | jbool (b : Bool)
  | jnum (q : ℚ)
  | jstr (s : String)
  | jarr (xs : List Json)
  | jobj (fields : List (String × Json))

/-- Python truthiness of a JSON value. -/
def jsonTruthy : Json → Bool
  | .null => false
  | .jbool b => b
  | .jnum q => if q = 0 then false else true
  | .jstr s => if s = "" then false else true
  | .jarr [] => false
  | .jarr (_ :: _) => true
  | .jobj [] => false
  | .jobj (_ :: _) => true

/-- `dict.get(k, default)` on a parsed JSON object (`json.loads` produces
unique keys). -/
def objGet (fields : List (String × Json)) (k : String) (default : Json) : Json :=
  match fields.find? (fun p => p.1 == k) with
  | some p => p.2
  | none => default

/-- `script = script_data.get("script", "")` followed by the truthiness
check of `generate_script`: `none` models the `AttributeError` on a
non-dict value or the `ValueError` raised on a falsy script. -/
def extractScriptField : Json → Option Json
  | .jobj fields =>
    if jsonTruthy (objGet fields "script" (.jstr "")) then
      some (objGet fields "script" (.jstr ""))
    else none
  | _ => none

/-- Index of the first occurrence of `c`, Python `str.find` (with `none`
for `-1`). -/
def pyFindChar (c : Char) : List Char → Option Nat
  | [] => none
  | d :: rest => if d = c then some 0 else (pyFindChar c rest).map (· + 1)

/-- Index of the last occurrence of `c`, Python `str.rfind` (with `none`
for `-1`). -/
def pyRFindChar (c : Char) (l : List Char) : Option Nat :=
  match pyFindChar c l.reverse with
  | some k => some (l.length - 1 - k)
  | none => none

/-- `fix_json_response(json_str)` from `utility/script/script_generator.py`:
escape newlines, strip, and cut out the region from the first `\x7b` to the
last `\x7d` when both occur. -/
def fix_json_response (s : String) : String :=
  if s = "" then s
  else
    match pyFindChar '\x7b' (pystrip ((s.replace "\n" "\\n").replace "\r" "\\r")).data,
        pyRFindChar '\x7d' (pystrip ((s.replace "\n" "\\n").replace "\r" "\\r")).data with
    | some i, some j =>
      ⟨((pystrip ((s.replace "\n" "\\n").replace "\r" "\\r")).data.drop i).take (j + 1 - i)⟩
    | _, _ => pystrip ((s.replace "\n" "\\n").replace "\r" "\\r")

/-- The literal part `"script":` of the regex
`r'"script":\s*"([^"]+)"'`. -/
def scriptKeyPat : List Char := "\"script\":".data

/-- Match the `"([^"]+)"` tail of the script regex: an opening quote was
just consumed; the capture is the maximal run of non-quote characters,
must be non-empty, and must be followed by a closing quote. -/
def capAfterQuote (rest3 : List Char) : Option String :=
  match rest3.takeWhile (fun d => ¬ d = quoteChar),
      rest3.dropWhile (fun d => ¬ d = quoteChar) with
  | [], _ => none
  | _ :: _, [] => none
  | c :: cs, d :: _ => if d = quoteChar then some ⟨c :: cs⟩ else none

/-- Try to match the regex `"script":\s*"([^"]+)"` at the start of
`cs`. -/
def matchScriptAt (cs : List Char) : Option String :=
  if scriptKeyPat.isPrefixOf cs then
    match (cs.drop scriptKeyPat.length).dropWhile pyIsSpace with
    | [] => none
    | c :: rest3 => if c = quoteChar then capAfterQuote rest3 else none
  else none

/-- `re.search` for the script regex: try to match at each position, left
to right, returning the first capture. -/
def reSearchScript : List Char → Option String
  | [] => none
  | c :: rest =>
    match matchScriptAt (c :: rest) with
    | some s => some s
    | none => reSearchScript rest

/-- `validate_groq_api()` from `utility/script/script_generator.py`:
`True` exactly when the `GROQ_API_KEY` variable is set, truthy, and longer
than 30 characters. -/
def validate_groq_api : Option String → Bool
  | none => false
  | some k => if k = "" then false else if k.length ≤ 30 then false else true

/-- External outcomes of one `generate_script` run: the `GROQ_API_KEY`
value, whether the `groq` import and client construction succeed, the
(stripped-later) chat completion content (`none` models an exception or a
missing field, caught by the outer handler), and the `json.loads` parser
as an oracle function. -/
structure ScriptEnv where
  groqKey : Option String
  importOk : Bool
  initOk : Bool
  apiContent : Option String
  jsonParse : String → Option Json

/-- `generate_script(topic)` from `utility/script/script_generator.py`.
Control flow: a failed key validation, import, client construction or API
call returns `None`; a successful direct parse goes through
`extractScriptField`, whose failure propagates to the outer handler
(`None`); on a `JSONDecodeError` the `fix_json_response` repair is parsed,
its extraction failures fall through to the regex fallback; when that also
fails the function returns `None`.  (The prompt built from `topic` only
feeds the external call and carries no information here.)

`scriptFromContent` is the part of the function past a successful API
call, with `raw` the `.strip()`-pending response content. -/
def scriptFromContent (env : ScriptEnv) (raw : String) : Option Json :=
  match env.jsonParse (pystrip raw) with
  | some j => extractScriptField j
  | none =>
    match (env.jsonParse (fix_json_response (pystrip raw))).bind extractScriptField with
    | some s => some s
    | none =>
      match reSearchScript (pystrip raw).data with
      | some cap => some (.jstr cap)
      | none => none

/-- `generate_script(topic)`: key validation, import and client
construction guards, then the API call and `scriptFromContent`. -/
def generate_script (env : ScriptEnv) : Option Json :=
  if ¬ validate_groq_api env.groqKey then none
  else if ¬ env.importOk then none
  else if ¬ env.initOk then none
  else
    match env.apiContent with
    | none => none
    | some raw => scriptFromContent env raw

/-- The concrete environment of the C6 counterexample: a valid key, a
working client, and a model response whose `script` field is the number
5. -/
def scriptEnvNum : ScriptEnv :=
  ⟨some "0123456789012345678901234567890x", true, true, some "resp",
   fun _ => some (.jobj [("script", .jnum 5)])⟩

/-! ### video_search_query_generator.merge_empty_intervals and app.main -/

/-- `isinstance(x, (list, tuple))`. -/
def isListOrTuple : PVal → Bool
  | .plist _ => true
  | .ptuple _ => true
  | _ => false

/-- `x is None`. -/
def isNonePV : PVal → Bool
  | .pnone => true
  | _ => false

/-- `interval, url = safe_unpack(seg, 2, default_values=[[-1, -1], None])`
inside `merge_empty_intervals`.  With `expected_count = 2` and two
defaults, `safe_unpack` always returns exactly two values, so the
catch-all (a `ValueError` on unpacking) is unreachable. -/
def unpack2 (seg : PVal) : PVal × PVal :=
  match vsq_safe_unpack seg 2 (some [.plist [.pnum (-1), .pnum (-1)], .pnone]) with
  | [a, b] => (a, b)
  | _ => (.plist [.pnum (-1), .pnum (-1)], .pnone)

/-- Length of the run, starting at index `j`, of segments that are
lists/tuples whose unpacked url is `None`: the
`j = i + 1; while j < len(segments): ...` scan of
`merge_empty_intervals`, refactored to return how many entries the scan
consumed (`j` ends at `start + noneBlockLen`). -/
def noneBlockLen (segments : List PVal) (j : Nat) : Nat :=
  if h : j < segments.length then
    if ¬ isListOrTuple (segments.get ⟨j, h⟩) then 0
    else if isNonePV (unpack2 (segments.get ⟨j, h⟩)).2 then
      noneBlockLen segments (j + 1) + 1
    else 0
  else 0
termination_by segments.length - j

/-- Python `len(x)` (`none` models the `TypeError` on non-sequences). -/
def pyLen? : PVal → Option Nat
  | .plist xs => some xs.length
  | .ptuple xs => some xs.length
  | .pstr s => some s.length
  | _ => none

/-- Python `x[i]` (`none` models `TypeError`/`IndexError`); indexing a
string yields a one-character string. -/
def pyIndex? : PVal → Nat → Option PVal
  | .plist xs, i => xs.get? i
  | .ptuple xs, i => xs.get? i
  | .pstr s, i => (s.data.get? i).map (fun c => .pstr (String.singleton c))
  | _, _ => none

/-- Python numeric coercion for subtraction (`bool` counts as 0/1;
everything else raises). -/
def pyNum? : PVal → Option ℚ
  | .pnum q => some q
  | .pbool b => some (if b then 1 else 0)
  | _ => none

/-- The merge condition
`prev_url is not None and len(prev_interval) >= 2 and len(interval) >= 2
and abs(prev_interval[1] - interval[0]) <= 0.1` with Python left-to-right
short-circuit evaluation; `none` models a raised exception (a `len` or
subtraction on an unsupported type). -/
def mergeCond (prev_interval prev_url interval : PVal) : Option Bool :=
  if isNonePV prev_url then some false
  else
    match pyLen? prev_interval with
    | none => none
    | some l1 =>
      if l1 < 2 then some false
      else
        match pyLen? interval with
        | none => none
        | some l2 =>
          if l2 < 2 then some false
          else
            match pyIndex? prev_interval 1, pyIndex? interval 0 with
            | some a, some b =>
              match pyNum? a, pyNum? b with
              | some qa, some qb => some (decide (|qa - qb| ≤ 1 / 10))
              | _, _ => none
            | _, _ => none

/-- The `last_end_time` computation of the merge branch: start from
`interval[1]`, then override it with `segments[j-1]`'s unpacked interval
end when that entry is a sequence whose unpacked interval has length at
least 2 (`none` models the `len` raising on a non-sequence). -/
def lastEndOverride (segments : List PVal) (j : Nat) (le0 : PVal) : Option PVal :=
  if h : j - 1 < segments.length then
    if isListOrTuple (segments.get ⟨j - 1, h⟩) then
      match pyLen? (unpack2 (segments.get ⟨j - 1, h⟩)).1 with
      | none => none
      | some ll =>
        if ll ≥ 2 then pyIndex? (unpack2 (segments.get ⟨j - 1, h⟩)).1 1
        else some le0
    else some le0
  else some le0

/-- The replacement entry
`merged[-1] = [[prev_interval[0], last_end_time], prev_url]` (`none`
models an exception while computing it). -/
def extendEntry (segments : List PVal) (j : Nat) (prev_interval prev_url interval : PVal) :
    Option PVal :=
  match pyIndex? interval 1 with
  | none => none
  | some le0 =>
    match lastEndOverride segments j le0 with
    | none => none
    | some lastEnd =>
      match pyIndex? prev_interval 0 with
      | none => none
      | some p0 => some (.plist [.plist [p0, lastEnd], prev_url])

/-- The `while i < len(segments)` loop of `merge_empty_intervals`.
Non-sequence segments are skipped; a segment with a url appends
`[interval, url]`; a segment without a url consumes the following run of
url-less segments (`i = j`) and either extends the previous merged entry,
appends `[interval, prev_url]`, or (at the start) appends
`[interval, None]`.  Any modelled exception falls to the
`except: i += 1` handler with `merged` unchanged.  `merged[-1]` is always
a two-element list by construction, so its unpacking never raises; the
catch-all branch models the raise all the same. -/
def mergeGo (segments : List PVal) (i : Nat) (merged : List PVal) : List PVal :=
  if h : i < segments.length then
    if ¬ isListOrTuple (segments.get ⟨i, h⟩) then mergeGo segments (i + 1) merged
    else
      if isNonePV (unpack2 (segments.get ⟨i, h⟩)).2 then
        if i = 0 then
          mergeGo segments (i + 1 + noneBlockLen segments (i + 1))
            (merged ++ [.plist [(unpack2 (segments.get ⟨i, h⟩)).1, .pnone]])
        else
          match merged.getLast? with
          | none =>
            mergeGo segments (i + 1 + noneBlockLen segments (i + 1))
              (merged ++ [.plist [(unpack2 (segments.get ⟨i, h⟩)).1, .pnone]])
          | some (.plist [pi, pu]) =>
            (match mergeCond pi pu (unpack2 (segments.get ⟨i, h⟩)).1 with
             | none => mergeGo segments (i + 1) merged
             | some true =>
               (match extendEntry segments (i + 1 + noneBlockLen segments (i + 1)) pi pu
                   (unpack2 (segments.get ⟨i, h⟩)).1 with
                | none => mergeGo segments (i + 1) merged
                | some newLast =>
                  mergeGo segments (i + 1 + noneBlockLen segments (i + 1))
                    (merged.dropLast ++ [newLast]))
             | some false =>
               mergeGo segments (i + 1 + noneBlockLen segments (i + 1))
                 (merged ++ [.plist [(unpack2 (segments.get ⟨i, h⟩)).1, pu]]))
          | _ => mergeGo segments (i + 1) merged
      else
        mergeGo segments (i + 1)
          (merged ++ [.plist [(unpack2 (segments.get ⟨i, h⟩)).1,
            (unpack2 (segments.get ⟨i, h⟩)).2]])
  else merged
termination_by segments.length - i
decreasing_by
  all_goals simp_wf
  all_goals omega

/-- `merge_empty_intervals(segments)` from
`utility/video/video_search_query_generator.py`: `None`, non-list and
empty inputs yield `[]`; otherwise the merge loop runs from index 0. -/
def merge_empty_intervals : PVal → List PVal
  | .pnone => []
  | .plist [] => []
  | .plist (s :: ss) => mergeGo (s :: ss) 0 []
  | _ => []

/-- The six pipeline stages of `main` in `app.py`. -/
inductive Stage where
  | script
  | audio
  | captions
  | search
  | video
  | render
deriving DecidableEq

/-- External outcomes of one `main` run: result of `generate_script`
(`None` or a JSON value), of `asyncio.run(generate_audio(...))`, of
`generate_timed_captions` (always a list), of `getVideoSearchQueriesTimed`
(`None` or a parsed list — every `return` of that function is `None` or a
value that passed its `isinstance(parsed_result, list)` check), and the
Pexels responses consumed by `generate_video_url`. -/
structure MainEnv where
  scriptR : Option Json
  audioR : Bool
  captionsR : List PVal
  searchR : Option (List PVal)
  pexelsEnv : String → Option (List Video)

/-- The `if not script:` guard of `main`. -/
def scriptOk (env : MainEnv) : Bool :=
  match env.scriptR with
  | none => false
  | some j => jsonTruthy j

/-- Python slicing `x[:100]` succeeds only on sequences: of the values
`json.loads` can produce, `str` and `list` slice, while `int`, `float`,
`bool` and `dict` raise `TypeError`. -/
def jsonSliceable : Json → Bool
  | .jstr _ => true
  | .jarr _ => true
  | _ => false

/-- Whether the script-preview line of `main`
(`print(f"... {script[:100]}...")`, app.py line 87) completes without
raising.  A truthy non-sequence script (for example the number 5, which
`generate_script` can return) raises `TypeError` there; the outer
`except Exception` handler then ends the run before the audio stage. -/
def scriptPreviewOk (env : MainEnv) : Bool :=
  match env.scriptR with
  | none => false
  | some j => jsonSliceable j

/-- The `search_terms` object `main` holds after step 4: `None` or the
parsed list, as a `PVal` (this is the value whose truthiness is tested and
that is passed to `generate_video_url`). -/
def searchTermsPV (env : MainEnv) : PVal :=
  match env.searchR with
  | none => .pnone
  | some xs => .plist xs

/-- Steps 5½–6 of `main`: with a truthy video lookup result the
backgrounds are merged (`background_video_urls =
merge_empty_intervals(background_video_urls)`); the render stage runs only
when the final `background_video_urls` is truthy. -/
def renderGate : List PVal → List Stage
  | [] => []
  | b :: bs =>
    match merge_empty_intervals (.plist (b :: bs)) with
    | [] => []
    | _ :: _ => [Stage.render]

/-- The stage-invocation trace of `main()` in `app.py`: stages are invoked
in the fixed order, each `if not ...: return` guard cuts the trace, a
`TypeError` raised by the script-preview slice `script[:100]` ends the run
before the audio stage (caught by the outer `except Exception`), a falsy
search result skips both the video lookup and the render, and the render
is gated by `renderGate`.  `main` always calls `generate_video_url` with
the parsed search terms, `video_server = "pexel"` (the only argparse
choice) and the default portrait orientation.  The preview loops of steps
3–5 run each item inside its own `try/except`, and the remaining
inter-stage statements (`len` and f-strings on values that are lists by
the callees' return types) cannot raise, so no other uncaught error path
cuts the trace. -/
def mainTrace (env : MainEnv) : List Stage :=
  Stage.script ::
    (if ¬ scriptOk env then []
     else if ¬ scriptPreviewOk env then []
     else Stage.audio ::
       (if ¬ env.audioR then []
        else Stage.captions ::
          (match env.captionsR with
           | [] => []
           | _ :: _ => Stage.search ::
             (if ¬ pyTruthy (searchTermsPV env) then []
              else Stage.video ::
                renderGate
                  (generate_video_url (searchTermsPV env) "pexel" "portrait"
                    env.pexelsEnv)))))

/-! ### Auxiliary list lemmas for `strip` -/

theorem dropWhile_head_false {α : Type} {p : α → Bool} :
    ∀ {l : List α} {c : α}, (l.dropWhile p).head? = some c → p c = false := by
  intro l
  induction l with
  | nil => intro c h; simp [List.dropWhile] at h
  | cons x xs ih =>
    intro c h
    by_cases hp : p x
    · rw [List.dropWhile_cons, if_pos hp] at h
      exact ih h
    · rw [List.dropWhile_cons, if_neg hp] at h
      have hxc : x = c := by simpa using h
      rw [← hxc]
      simpa using hp

theorem dropWhile_eq_self_of_head {α : Type} {p : α → Bool} {l : List α}
    (h : ∀ c, l.head? = some c → p c = false) : l.dropWhile p = l := by
  cases l with
  | nil => rfl
  | cons x xs =>
    rw [List.dropWhile_cons, if_neg]
    simp [h x rfl]

theorem exists_append_dropWhile {α : Type} (p : α → Bool) (l : List α) :
    ∃ t, t ++ l.dropWhile p = l := by
  induction l with
  | nil => exact ⟨[], rfl⟩
  | cons x xs ih =>
    by_cases hp : p x
    · obtain ⟨t, ht⟩ := ih
      exact ⟨x :: t, by rw [List.dropWhile_cons, if_pos hp]; simpa using ht⟩
    · exact ⟨[], by rw [List.dropWhile_cons, if_neg hp]; rfl⟩

theorem head?_append_of_ne_nil {α : Type} {l₁ l₂ : List α} (h : l₁ ≠ []) :
    (l₁ ++ l₂).head? = l₁.head? := by
  cases l₁ with
  | nil => exact absurd rfl h
  | cons x xs => rfl

theorem stripList_idem (l : List Char) : stripList (stripList l) = stripList l := by
  unfold stripList
  by_cases hq : (l.dropWhile pyIsSpace).reverse.dropWhile pyIsSpace = []
  · rw [hq]
    simp
  · have h2 : ((l.dropWhile pyIsSpace).reverse.dropWhile pyIsSpace).dropWhile pyIsSpace
        = (l.dropWhile pyIsSpace).reverse.dropWhile pyIsSpace := by
      apply dropWhile_eq_self_of_head
      intro c hc
      exact dropWhile_head_false hc
    have h1 : ((l.dropWhile pyIsSpace).reverse.dropWhile pyIsSpace).reverse.dropWhile pyIsSpace
        = ((l.dropWhile pyIsSpace).reverse.dropWhile pyIsSpace).reverse := by
      apply dropWhile_eq_self_of_head
      intro c hc
      obtain ⟨t, ht⟩ := exists_append_dropWhile pyIsSpace (l.dropWhile pyIsSpace).reverse
      have hr2 : ((l.dropWhile pyIsSpace).reverse.dropWhile pyIsSpace).reverse ++ t.reverse
          = l.dropWhile pyIsSpace := by
        rw [← List.reverse_append, ht, List.reverse_reverse]
      have hne : ((l.dropWhile pyIsSpace).reverse.dropWhile pyIsSpace).reverse ≠ [] := by
        simpa using hq
      have hhead : (l.dropWhile pyIsSpace).head? = some c := by
        rw [← hr2, head?_append_of_ne_nil hne]
        exact hc
      exact dropWhile_head_false hhead
    rw [h1, List.reverse_reverse, h2]

theorem pystrip_idem (s : String) : pystrip (pystrip s) = pystrip s := by
  unfold pystrip
  exact congrArg String.mk (stripList_idem s.data)

theorem validateTimes_shape {a b text : PVal} {rest : List PVal} {v : PVal}
    (hv : validateTimes a b text rest = some v) :
    ∃ s e t, v = .ptuple [.ptuple [.pnum s, .pnum e], .pstr t, colorOf rest] ∧
      t ≠ "" ∧ pystrip t = t := by
  unfold validateTimes at hv
  split at hv
  · split at hv
    · exact absurd hv (by simp)
    · rename_i s e _ _ ht
      refine ⟨s, e, pystrip (pyStr text), (Option.some_injective _ hv).symm, ht, pystrip_idem _⟩
  · exact absurd hv (by simp)

theorem validateOne_shape {c v : PVal} (hv : validateOne c = some v) :
    ∃ s e t col, v = .ptuple [.ptuple [.pnum s, .pnum e], .pstr t, col] ∧
      t ≠ "" ∧ pystrip t = t := by
  unfold validateOne at hv
  split at hv
  all_goals first
    | exact absurd hv (by simp)
    | · rename_i time_info text rest2
        unfold validateCore at hv
        split at hv
        all_goals first
          | exact absurd hv (by simp)
          | obtain ⟨s, e, t, hshape, ht, hst⟩ := validateTimes_shape hv
            exact ⟨s, e, t, colorOf rest2, hshape, ht, hst⟩

/-! ### C1 -/

/-- C1: for every input list, every element of the list returned by
`validate_caption_format` is a 3-tuple `((start, end), text, color)` whose
`start` and `end` are floats, whose `text` is a non-empty stripped string,
and the output is no longer than the input; a caption of length exactly 2
that validates gets the default color `"white"`. -/
theorem validate_caption_format_spec (captions : List PVal) :
    (validate_caption_format captions).length ≤ captions.length ∧
    (∀ c ∈ validate_caption_format captions, ∃ s e t col,
      c = .ptuple [.ptuple [.pnum s, .pnum e], .pstr t, col] ∧
      t ≠ "" ∧ pystrip t = t) ∧
    (∀ ti tx v, validateOne (.plist [ti, tx]) = some v →
      ∃ s e t, v = .ptuple [.ptuple [.pnum s, .pnum e], .pstr t, .pstr "white"]) := by
  refine ⟨?_, ?_, ?_⟩
  · induction captions with
    | nil => simp [validate_caption_format]
    | cons c rest ih =>
      rw [validate_caption_format]
      cases h : validateOne c with
      | some v => simpa using Nat.succ_le_succ ih
      | none => exact Nat.le_succ_of_le ih
  · induction captions with
    | nil => intro c hc; simp [validate_caption_format] at hc
    | cons c rest ih =>
      intro x hx
      rw [validate_caption_format] at hx
      cases h : validateOne c with
      | some v =>
        rw [h] at hx
        rcases List.mem_cons.mp hx with h1 | h2
        · subst h1; exact validateOne_shape h
        · exact ih x h2
      | none =>
        rw [h] at hx
        exact ih x hx
  · intro ti tx v hv
    have hcore : validateCore ti tx [] = some v := hv
    unfold validateCore at hcore
    split at hcore
    all_goals first
      | exact absurd hcore (by simp)
      | obtain ⟨s, e, t, hshape, ht, hst⟩ := validateTimes_shape hcore
        exact ⟨s, e, t, hshape⟩

/-- Witness for C1 at a concrete caption list: the first element of the
validated output of a two-caption list (one valid, one malformed) has the
required shape. -/
theorem validate_caption_format_spec_witness :
    ∃ s e t col,
      PVal.ptuple [.ptuple [.pnum 0, .pnum 1], .pstr "hi", .pstr "red"]
        = PVal.ptuple [.ptuple [.pnum s, .pnum e], .pstr t, col] ∧
      t ≠ "" ∧ pystrip t = t := by
  have hmem : PVal.ptuple [.ptuple [.pnum 0, .pnum 1], .pstr "hi", .pstr "red"]
      ∈ validate_caption_format
        [.ptuple [.ptuple [.pnum 0, .pnum 1], .pstr " hi ", .pstr "red"], .pstr "bad"] := by
    have hv : validate_caption_format
        [.ptuple [.ptuple [.pnum 0, .pnum 1], .pstr " hi ", .pstr "red"], .pstr "bad"]
        = [.ptuple [.ptuple [.pnum 0, .pnum 1], .pstr "hi", .pstr "red"]] := by
      rfl
    rw [hv]
    exact List.mem_singleton.mpr rfl
  exact (validate_caption_format_spec
    [.ptuple [.ptuple [.pnum 0, .pnum 1], .pstr " hi ", .pstr "red"], .pstr "bad"]).2.1
    _ hmem

/-! ### C3 -/

theorem tryMethods_all_fail {env : CapEnv} {ms : List String}
    (h : ∀ m ∈ ms, methodOutcome env m = .error () ∨ methodOutcome env m = .ok []) :
    tryMethods env ms = [] := by
  induction ms with
  | nil => rfl
  | cons m rest ih =>
    rw [tryMethods]
    rcases h m (List.mem_cons_self m rest) with hm | hm
    · rw [hm]
      exact ih (fun x hx => h x (List.mem_cons_of_mem m hx))
    · rw [hm]
      exact ih (fun x hx => h x (List.mem_cons_of_mem m hx))

theorem tryMethods_ne_nil {env : CapEnv} {ms : List String}
    (h : tryMethods env ms ≠ []) :
    ∃ m ∈ ms, ∃ caps, methodOutcome env m = .ok caps ∧ caps ≠ [] ∧
      tryMethods env ms = validate_caption_format caps := by
  induction ms with
  | nil => exact absurd rfl h
  | cons m rest ih =>
    rw [tryMethods] at h ⊢
    cases hm : methodOutcome env m with
    | error u =>
      rw [hm] at h
      obtain ⟨m2, hm2, caps, hc⟩ := ih h
      exact ⟨m2, List.mem_cons_of_mem m hm2, caps, hc⟩
    | ok caps =>
      rw [hm] at h
      cases caps with
      | nil =>
        obtain ⟨m2, hm2, caps2, hc⟩ := ih h
        exact ⟨m2, List.mem_cons_of_mem m hm2, caps2, hc⟩
      | cons c cs =>
        exact ⟨m, List.mem_cons_self m rest, c :: cs, hm, by simp, rfl⟩

theorem orderedMethods_subset {method m : String} (h : m ∈ orderedMethods method) :
    m ∈ baseMethods := by
  unfold orderedMethods at h
  split at h
  · rcases List.mem_append.mp h with h2 | h2
    · exact List.mem_of_mem_filter h2
    · exact List.mem_of_mem_filter h2
  · exact h

/-- C3: `generate_timed_captions` returns the empty list when the audio
file does not exist, when it has size zero, or when every transcription
method raises or returns no captions; a non-empty result can only arise
from a succeeding method whose caption list is non-empty, and is the
result of `validate_caption_format` applied to that list. -/
theorem generate_timed_captions_spec (env : CapEnv) (method : String) :
    (env.fileExists = false → generate_timed_captions env method = []) ∧
    (env.fileSizeZero = true → generate_timed_captions env method = []) ∧
    ((∀ m ∈ baseMethods, methodOutcome env m = .error () ∨ methodOutcome env m = .ok []) →
      generate_timed_captions env method = []) ∧
    (generate_timed_captions env method ≠ [] →
      ∃ m ∈ orderedMethods method, ∃ caps, methodOutcome env m = .ok caps ∧ caps ≠ [] ∧
        generate_timed_captions env method = validate_caption_format caps) := by
  refine ⟨?_, ?_, ?_, ?_⟩
  · intro h
    unfold generate_timed_captions
    rw [h]
    rfl
  · intro h
    unfold generate_timed_captions
    rw [h]
    cases env.fileExists <;> rfl
  · intro h
    unfold generate_timed_captions
    cases hfe : env.fileExists
    · rfl
    · cases hfz : env.fileSizeZero
      · exact tryMethods_all_fail (fun m hm => h m (orderedMethods_subset hm))
      · rfl
  · intro h
    unfold generate_timed_captions at h ⊢
    cases hfe : env.fileExists
    · rw [hfe] at h
      exact absurd rfl h
    · rw [hfe] at h
      cases hfz : env.fileSizeZero
      · rw [hfz] at h
        exact tryMethods_ne_nil h
      · rw [hfz] at h
        exact absurd rfl h

/-- Witness for C3 at a concrete environment in which every method fails:
the result is the empty list. -/
theorem generate_timed_captions_spec_witness :
    generate_timed_captions ⟨true, false, .error (), .ok [], .error (), .ok []⟩ "vosk" = [] := by
  refine (generate_timed_captions_spec ⟨true, false, .error (), .ok [], .error (), .ok []⟩
    "vosk").2.2.1 ?_
  intro m hm
  simp only [baseMethods, List.mem_cons, List.not_mem_nil, or_false] at hm
  rcases hm with hm | hm | hm | hm
  · subst hm; exact Or.inl rfl
  · subst hm; exact Or.inr rfl
  · subst hm; exact Or.inl rfl
  · subst hm; exact Or.inr rfl

/-! ### C2 (corrected) -/

/-- Counterexample to C2 as stated: in a run where the primary awaited
`communicate.save` raises, the fallback branch awaits `communicate.save`
a second time, so an invocation of `generate_audio` awaits the save
operation twice. -/
theorem generate_audio_two_saves :
    (generate_audio (.pstr "hello") ⟨true, false, false, true, true, true⟩).saveAwaits = 2 ∧
    ¬ (generate_audio (.pstr "hello") ⟨true, false, false, true, true, true⟩).saveAwaits ≤ 1 := by
  constructor
  · rfl
  · intro h
    have h2 : (generate_audio (.pstr "hello") ⟨true, false, false, true, true, true⟩).saveAwaits = 2 := rfl
    rw [h2] at h
    omega

/-- C2 (amended): an invocation of `generate_audio` awaits the TTS save
operation at most twice, and awaits it more than once only when the primary
`Communicate` construction succeeded, its awaited save raised, and the
fallback `Communicate` construction succeeded; there is no concurrent
scheduling — the awaits are strictly sequential in a single coroutine. -/
theorem generate_audio_save_count (text0 : PVal) (env : AudioEnv) :
    (generate_audio text0 env).saveAwaits ≤ 2 ∧
    (2 ≤ (generate_audio text0 env).saveAwaits →
      env.primaryCtorOk = true ∧ env.primarySaveOk = false ∧ env.fallbackCtorOk = true) := by
  rcases env with ⟨p1, p2, p3, p4, p5, p6⟩
  cases p1 <;> cases p2 <;> cases p4 <;> cases p5 <;>
    simp [generate_audio, fallbackRun]

/-- Witness for the amended C2 at a concrete double-save run. -/
theorem generate_audio_save_count_witness :
    (generate_audio (.pstr "hi") ⟨true, false, false, true, true, true⟩).saveAwaits ≤ 2 ∧
    ((⟨true, false, false, true, true, true⟩ : AudioEnv).primaryCtorOk = true ∧
      (⟨true, false, false, true, true, true⟩ : AudioEnv).primarySaveOk = false ∧
      (⟨true, false, false, true, true, true⟩ : AudioEnv).fallbackCtorOk = true) :=
  ⟨(generate_audio_save_count (.pstr "hi") ⟨true, false, false, true, true, true⟩).1,
   (generate_audio_save_count (.pstr "hi") ⟨true, false, false, true, true, true⟩).2 (by rfl)⟩

/-! ### C4 -/

/-- C4: if the primary synthesis raises (constructor or awaited save), the
function retries exactly once, with the fixed fallback text and the voice
`en-US-AriaNeural`; it returns `True` exactly when the save attempt that
ended the run was followed by an existing, non-empty output file, and
returns `False` in every other case (the embedding is total, so no
exception escapes). -/
theorem generate_audio_fallback_spec (text0 : PVal) (env : AudioEnv) :
    ((env.primaryCtorOk = false ∨ env.primarySaveOk = false) →
      (generate_audio text0 env).attempts =
        [⟨processText text0, "en-US-GuyNeural"⟩, ⟨audioFallbackText, "en-US-AriaNeural"⟩]) ∧
    (env.primaryCtorOk = true → env.primarySaveOk = true →
      (generate_audio text0 env).attempts = [⟨processText text0, "en-US-GuyNeural"⟩]) ∧
    ((generate_audio text0 env).returnValue = true ↔
      ((env.primaryCtorOk = true ∧ env.primarySaveOk = true ∧ env.fileOkPrimary = true) ∨
       ((env.primaryCtorOk = false ∨ env.primarySaveOk = false) ∧
        env.fallbackCtorOk = true ∧ env.fallbackSaveOk = true ∧ env.fileOkFallback = true))) := by
  rcases env with ⟨p1, p2, p3, p4, p5, p6⟩
  cases p1 <;> cases p2 <;> cases p3 <;> cases p4 <;> cases p5 <;> cases p6 <;>
    simp [generate_audio, fallbackRun]

/-- Witness for C4 at a concrete run whose primary save raises: the run
performs exactly the primary attempt followed by the fixed fallback
attempt. -/
theorem generate_audio_fallback_spec_witness :
    (generate_audio (.pstr "hi") ⟨true, false, false, true, true, true⟩).attempts =
      [⟨processText (.pstr "hi"), "en-US-GuyNeural"⟩,
       ⟨audioFallbackText, "en-US-AriaNeural"⟩] :=
  (generate_audio_fallback_spec (.pstr "hi") ⟨true, false, false, true, true, true⟩).1
    (Or.inr rfl)

/-! ### Sort membership lemmas -/

theorem mem_insertSorted {α : Type} {le : α → α → Bool} {x a : α} :
    ∀ {l : List α}, a ∈ insertSorted le x l ↔ a = x ∨ a ∈ l := by
  intro l
  induction l with
  | nil => simp [insertSorted]
  | cons y ys ih =>
    rw [insertSorted]
    by_cases hle : le y x
    · rw [if_pos hle]
      simp only [List.mem_cons, ih]
      tauto
    · rw [if_neg hle]
      simp only [List.mem_cons]

theorem mem_insertionSortGo {α : Type} {le : α → α → Bool} {a : α} :
    ∀ {l acc : List α}, a ∈ insertionSortGo le acc l ↔ a ∈ acc ∨ a ∈ l := by
  intro l
  induction l with
  | nil => simp [insertionSortGo]
  | cons x xs ih =>
    intro acc
    rw [insertionSortGo, ih]
    rw [mem_insertSorted]
    simp only [List.mem_cons]
    tauto

theorem mem_pySorted {α : Type} {le : α → α → Bool} {a : α} {l : List α} :
    a ∈ pySorted le l ↔ a ∈ l := by
  unfold pySorted
  rw [mem_insertionSortGo]
  simp

/-! ### C9 -/

theorem pickFile_some {used : List String} {url : String} :
    ∀ {fs : List VideoFile}, pickFile true used fs = some url →
    ∃ f ∈ fs, f.link = some url ∧ f.width > 0 ∧ f.height > 0 ∧
      f.height > f.width ∧ f.height ≥ 720 ∧ stripHd url ∉ used := by
  intro fs
  induction fs with
  | nil => intro h; exact absurd h (by simp [pickFile])
  | cons f rest ih =>
    obtain ⟨link, w, ht⟩ := f
    intro h
    cases link with
    | none =>
      rw [pickFile] at h
      obtain ⟨g, hg, hrest⟩ := ih h
      exact ⟨g, List.mem_cons_of_mem _ hg, hrest⟩
    | some l =>
      rw [pickFile] at h
      by_cases hdim : w ≤ 0 ∨ ht ≤ 0
      · rw [if_pos hdim] at h
        obtain ⟨g, hg, hrest⟩ := ih h
        exact ⟨g, List.mem_cons_of_mem _ hg, hrest⟩
      · rw [if_neg hdim] at h
        by_cases hused : stripHd l ∈ used
        · rw [if_pos hused] at h
          obtain ⟨g, hg, hrest⟩ := ih h
          exact ⟨g, List.mem_cons_of_mem _ hg, hrest⟩
        · rw [if_neg hused, if_pos rfl] at h
          by_cases hq : ht > w ∧ ht ≥ 720
          · rw [if_pos hq] at h
            have hurl : l = url := Option.some_injective _ h
            subst hurl
            push_neg at hdim
            exact ⟨⟨some l, w, ht⟩, List.mem_cons_self _ rest, rfl,
              hdim.1, hdim.2, hq.1, hq.2, hused⟩
          · rw [if_neg hq] at h
            obtain ⟨g, hg, hrest⟩ := ih h
            exact ⟨g, List.mem_cons_of_mem _ hg, hrest⟩

theorem pickVideos_some {used : List String} {url : String} :
    ∀ {videos : List Video}, pickVideos true used videos = some url →
    ∃ v ∈ videos, ∃ fs, v.video_files = some fs ∧
      ∃ f ∈ fs, f.link = some url ∧ f.width > 0 ∧ f.height > 0 ∧
        f.height > f.width ∧ f.height ≥ 720 ∧ stripHd url ∉ used := by
  intro videos
  induction videos with
  | nil => intro h; exact absurd h (by simp [pickVideos])
  | cons v rest ih =>
    obtain ⟨vw, vh, vd, vfs⟩ := v
    intro h
    cases vfs with
    | none =>
      rw [pickVideos] at h
      obtain ⟨w, hw, hrest⟩ := ih h
      exact ⟨w, List.mem_cons_of_mem _ hw, hrest⟩
    | some fs =>
      rw [pickVideos] at h
      cases hpf : pickFile true used (pySorted (fileStaysLe true) fs) with
      | none =>
        rw [hpf] at h
        obtain ⟨w, hw, hrest⟩ := ih h
        exact ⟨w, List.mem_cons_of_mem _ hw, hrest⟩
      | some url2 =>
        rw [hpf] at h
        have hurl : url2 = url := Option.some_injective _ h
        subst hurl
        obtain ⟨f, hf, hrest⟩ := pickFile_some hpf
        exact ⟨⟨vw, vh, vd, some fs⟩, List.mem_cons_self _ rest, fs, rfl, f,
          mem_pySorted.mp hf, hrest⟩

theorem chooseFiltered_subset {p : Bool} {videos : List Video} {x : Video}
    (h : x ∈ chooseFiltered p videos) : x ∈ videos := by
  unfold chooseFiltered at h
  cases hf : videos.filter (fun v => if p then portraitRecOk v else landscapeRecOk v) with
  | nil =>
    rw [hf] at h
    exact List.mem_of_mem_filter (show x ∈ videos.filter (fallbackRecOk p) from h)
  | cons v vs =>
    rw [hf] at h
    have h2 : x ∈ videos.filter (fun v => if p then portraitRecOk v else landscapeRecOk v) := by
      rw [hf]
      exact h
    exact List.mem_of_mem_filter h2

/-- C9: every url returned by `getBestVideo` with portrait orientation
belongs to a video file record of the response whose height is strictly
greater than its width and at least 720, and whose `.hd`-stripped link is
not among the `used_vids`; conversely, when no such file exists the
function returns `None`. -/
theorem getBestVideo_portrait_spec (resp : Option (List Video)) (used : List String) :
    (∀ url, getBestVideo resp true used = some url →
      ∃ videos, resp = some videos ∧ ∃ v ∈ videos, ∃ fs, v.video_files = some fs ∧
        ∃ f ∈ fs, f.link = some url ∧ f.height > f.width ∧ f.height ≥ 720 ∧
          stripHd url ∉ used) ∧
    ((∀ videos, resp = some videos → ∀ v ∈ videos, ∀ fs, v.video_files = some fs →
        ∀ f ∈ fs, ∀ l, f.link = some l →
          ¬(f.height > f.width ∧ f.height ≥ 720 ∧ stripHd l ∉ used)) →
      getBestVideo resp true used = none) := by
  have part1 : ∀ url, getBestVideo resp true used = some url →
      ∃ videos, resp = some videos ∧ ∃ v ∈ videos, ∃ fs, v.video_files = some fs ∧
        ∃ f ∈ fs, f.link = some url ∧ f.height > f.width ∧ f.height ≥ 720 ∧
          stripHd url ∉ used := by
    intro url h
    cases resp with
    | none => exact absurd h (by simp [getBestVideo])
    | some videos =>
      cases videos with
      | nil => exact absurd h (by simp [getBestVideo])
      | cons v0 vs0 =>
        rw [getBestVideo] at h
        cases hcf : chooseFiltered true (v0 :: vs0) with
        | nil =>
          rw [hcf] at h
          exact absurd h (by simp)
        | cons w ws =>
          rw [hcf] at h
          obtain ⟨v, hv, fs, hfs, f, hf, hlink, hdim1, hdim2, hgt, hge, hused⟩ :=
            pickVideos_some h
          refine ⟨v0 :: vs0, rfl, v, ?_, fs, hfs, f, hf, hlink, hgt, hge, hused⟩
          have hv2 : v ∈ chooseFiltered true (v0 :: vs0) := by
            rw [hcf]
            exact mem_pySorted.mp hv
          exact chooseFiltered_subset hv2
  refine ⟨part1, ?_⟩
  intro hnone
  cases hres : getBestVideo resp true used with
  | none => rfl
  | some url =>
    obtain ⟨videos, hresp, v, hv, fs, hfs, f, hf, hlink, hgt, hge, hused⟩ := part1 url hres
    exact absurd ⟨hgt, hge, hused⟩ (hnone videos hresp v hv fs hfs f hf url hlink)

/-- Witness for C9 at a concrete response: one portrait 720 by 900 file
qualifies (via the fallback record filter) and its link is returned. -/
theorem getBestVideo_portrait_spec_witness :
    ∃ videos, (some [Video.mk 720 900 10 (some [VideoFile.mk (some "u1") 720 900])]
        : Option (List Video)) = some videos ∧
      ∃ v ∈ videos, ∃ fs, v.video_files = some fs ∧
        ∃ f ∈ fs, f.link = some "u1" ∧ f.height > f.width ∧ f.height ≥ 720 ∧
          stripHd "u1" ∉ ([] : List String) :=
  (getBestVideo_portrait_spec
    (some [Video.mk 720 900 10 (some [VideoFile.mk (some "u1") 720 900])]) []).1
    "u1" (by rfl)

/-! ### C8 -/

theorem tryTerms_shape (env : String → Option (List Video)) (up : Bool) :
    ∀ (qs : List PVal) (used : List String),
      (tryTerms env up used qs).1 = .pnone ∨ ∃ s, (tryTerms env up used qs).1 = .pstr s := by
  intro qs
  induction qs with
  | nil => intro used; exact Or.inl rfl
  | cons q qrest ih =>
    intro used
    cases q with
    | pstr s =>
      rw [tryTerms]
      by_cases hs : s = ""
      · rw [if_pos hs]; exact ih used
      · rw [if_neg hs]
        by_cases hs2 : pystrip s = ""
        · rw [if_pos hs2]; exact ih used
        · rw [if_neg hs2]
          cases hbv : getBestVideo (env (pystrip s)) up used with
          | none => exact ih used
          | some url => exact Or.inr ⟨url, rfl⟩
    | pnone => exact ih used
    | pbool b => exact ih used
    | pnum n => exact ih used
    | plist xs => exact ih used
    | ptuple xs => exact ih used

theorem processTerms_shape (env : String → Option (List Video)) (up : Bool)
    (used : List String) (t1 t2 : ℚ) (terms : PVal) :
    ∃ u, (processTerms env up used t1 t2 terms).1 = .plist [.plist [.pnum t1, .pnum t2], u] ∧
      (u = .pnone ∨ ∃ s, u = .pstr s) := by
  cases terms with
  | pnone => exact ⟨.pnone, rfl, Or.inl rfl⟩
  | pbool b => exact ⟨.pnone, rfl, Or.inl rfl⟩
  | pnum n => exact ⟨.pnone, rfl, Or.inl rfl⟩
  | pstr s => exact ⟨.pnone, rfl, Or.inl rfl⟩
  | ptuple ys => exact ⟨.pnone, rfl, Or.inl rfl⟩
  | plist qs0 =>
    cases qs0 with
    | nil => exact ⟨.pnone, rfl, Or.inl rfl⟩
    | cons q qs =>
      exact ⟨(tryTerms env up used (q :: qs)).1, rfl, tryTerms_shape env up (q :: qs) used⟩

theorem processTimes_shape (env : String → Option (List Video)) (up : Bool)
    (used : List String) (t1v t2v terms : PVal) :
    ∃ a b u, (processTimes env up used t1v t2v terms).1
        = .plist [.plist [.pnum a, .pnum b], u] ∧
      (u = .pnone ∨ ∃ s, u = .pstr s) := by
  unfold processTimes
  cases h1 : pyFloat? t1v with
  | none =>
    cases h2 : pyFloat? t2v with
    | none => exact ⟨-1, -1, .pnone, rfl, Or.inl rfl⟩
    | some t2 => exact ⟨-1, -1, .pnone, rfl, Or.inl rfl⟩
  | some t1 =>
    cases h2 : pyFloat? t2v with
    | none => exact ⟨-1, -1, .pnone, rfl, Or.inl rfl⟩
    | some t2 =>
      obtain ⟨u, hu, hcase⟩ := processTerms_shape env up used t1 t2 terms
      exact ⟨t1, t2, u, hu, hcase⟩

theorem processItem_shape (env : String → Option (List Video)) (up : Bool)
    (used : List String) (sd : PVal) :
    ∃ a b u, (processItem env up used sd).1 = .plist [.plist [.pnum a, .pnum b], u] ∧
      (u = .pnone ∨ ∃ s, u = .pstr s) := by
  cases sd with
  | pnone => exact ⟨-1, -1, .pnone, rfl, Or.inl rfl⟩
  | pbool b => exact ⟨-1, -1, .pnone, rfl, Or.inl rfl⟩
  | pnum n => exact ⟨-1, -1, .pnone, rfl, Or.inl rfl⟩
  | pstr s => exact ⟨-1, -1, .pnone, rfl, Or.inl rfl⟩
  | ptuple xs => exact ⟨-1, -1, .pnone, rfl, Or.inl rfl⟩
  | plist xs =>
    cases xs with
    | nil => exact ⟨-1, -1, .pnone, rfl, Or.inl rfl⟩
    | cons ts xs2 =>
      cases xs2 with
      | nil => exact ⟨-1, -1, .pnone, rfl, Or.inl rfl⟩
      | cons terms xs3 =>
        cases xs3 with
        | cons y ys => exact ⟨-1, -1, .pnone, rfl, Or.inl rfl⟩
        | nil =>
          cases ts with
          | pnone => exact ⟨-1, -1, .pnone, rfl, Or.inl rfl⟩
          | pbool b => exact ⟨-1, -1, .pnone, rfl, Or.inl rfl⟩
          | pnum n => exact ⟨-1, -1, .pnone, rfl, Or.inl rfl⟩
          | pstr s => exact ⟨-1, -1, .pnone, rfl, Or.inl rfl⟩
          | ptuple ys => exact ⟨-1, -1, .pnone, rfl, Or.inl rfl⟩
          | plist tsl =>
            cases tsl with
            | nil => exact ⟨-1, -1, .pnone, rfl, Or.inl rfl⟩
            | cons t1v tsl2 =>
              cases tsl2 with
              | nil => exact ⟨-1, -1, .pnone, rfl, Or.inl rfl⟩
              | cons t2v tsl3 =>
                cases tsl3 with
                | cons z zs => exact ⟨-1, -1, .pnone, rfl, Or.inl rfl⟩
                | nil => exact processTimes_shape env up used t1v t2v terms

theorem pexelLoop_length (env : String → Option (List Video)) (up : Bool) :
    ∀ (xs : List PVal) (used : List String),
      (pexelLoop env up used xs).length = xs.length := by
  intro xs
  induction xs with
  | nil => intro used; rfl
  | cons sd rest ih =>
    intro used
    rw [pexelLoop]
    simp only [List.length_cons]
    rw [ih]

theorem pexelLoop_mem_shape (env : String → Option (List Video)) (up : Bool) :
    ∀ (xs : List PVal) (used : List String), ∀ e ∈ pexelLoop env up used xs,
      ∃ a b u, e = .plist [.plist [.pnum a, .pnum b], u] ∧
        (u = .pnone ∨ ∃ s, u = .pstr s) := by
  intro xs
  induction xs with
  | nil => intro used e he; simp [pexelLoop] at he
  | cons sd rest ih =>
    intro used e he
    rw [pexelLoop] at he
    rcases List.mem_cons.mp he with h1 | h2
    · obtain ⟨a, b, u, hu, hcase⟩ := processItem_shape env up used sd
      exact ⟨a, b, u, h1 ▸ hu, hcase⟩
    · exact ih _ e h2

theorem pexelLoop_pointwise (env : String → Option (List Video)) (up : Bool) :
    ∀ (xs : List PVal) (used : List String) (i : Nat), i < xs.length →
      ∃ used2, (pexelLoop env up used xs).getD i .pnone =
        (processItem env up used2 (xs.getD i .pnone)).1 := by
  intro xs
  induction xs with
  | nil => intro used i hi; simp at hi
  | cons sd rest ih =>
    intro used i hi
    cases i with
    | zero => exact ⟨used, rfl⟩
    | succ j =>
      have hj : j < rest.length := by simpa using hi
      obtain ⟨used2, h2⟩ := ih (processItem env up used sd).2 j hj
      exact ⟨used2, h2⟩

/-- C8: for `video_server == "pexel"` and any list input,
`generate_video_url` returns a list of exactly the input's length, where
each element is a pair `[time_segment, url]` whose time segment is a
two-element numeric list and whose url is a string or `None`; entry `i` is
produced from input item `i` (same order, one output entry per input
item). -/
theorem generate_video_url_pexel_spec (env : String → Option (List Video))
    (orientation : String) (xs : List PVal) :
    (generate_video_url (.plist xs) "pexel" orientation env).length = xs.length ∧
    (∀ e ∈ generate_video_url (.plist xs) "pexel" orientation env,
      ∃ a b u, e = .plist [.plist [.pnum a, .pnum b], u] ∧
        (u = .pnone ∨ ∃ s, u = .pstr s)) ∧
    (∀ i, i < xs.length →
      ∃ used2, (generate_video_url (.plist xs) "pexel" orientation env).getD i .pnone =
        (processItem env (orientation = "portrait") used2 (xs.getD i .pnone)).1) := by
  cases xs with
  | nil =>
    refine ⟨rfl, ?_, ?_⟩
    · intro e he
      simp [generate_video_url] at he
    · intro i hi
      simp at hi
  | cons x rest =>
    have hgen : generate_video_url (.plist (x :: rest)) "pexel" orientation env
        = pexelLoop env (orientation = "portrait") [] (x :: rest) := by
      rw [generate_video_url, if_pos rfl]
    refine ⟨?_, ?_, ?_⟩
    · rw [hgen]
      exact pexelLoop_length env _ (x :: rest) []
    · rw [hgen]
      exact pexelLoop_mem_shape env _ (x :: rest) []
    · intro i hi
      rw [hgen]
      exact pexelLoop_pointwise env _ (x :: rest) [] i hi

/-- Witness for C8 at a concrete input list and an environment whose
searches find nothing: the single valid segment produces
`[[0, 2], None]`. -/
theorem generate_video_url_pexel_spec_witness :
    ∃ a b u,
      (PVal.plist [.plist [.pnum 0, .pnum 2], .pnone])
        = PVal.plist [.plist [.pnum a, .pnum b], u] ∧
      (u = .pnone ∨ ∃ s, u = .pstr s) := by
  have hmem : (PVal.plist [.plist [.pnum 0, .pnum 2], .pnone])
      ∈ generate_video_url
          (.plist [.plist [.plist [.pnum 0, .pnum 2], .plist [.pstr "dog"]]])
          "pexel" "portrait" (fun _ => none) := by
    have hv : generate_video_url
        (.plist [.plist [.plist [.pnum 0, .pnum 2], .plist [.pstr "dog"]]])
        "pexel" "portrait" (fun _ => none)
        = [.plist [.plist [.pnum 0, .pnum 2], .pnone]] := by
      rfl
    rw [hv]
    exact List.mem_singleton.mpr rfl
  exact (generate_video_url_pexel_spec (fun _ => none) "portrait"
    [.plist [.plist [.pnum 0, .pnum 2], .plist [.pstr "dog"]]]).2.1 _ hmem

/-! ### C5 -/

/-- C5: `generate_video_url` returns the empty list, without raising (the
embedding is total), when its input is `None`, the empty list, or not a
list, and for any input whenever the video server is neither `"pexel"` nor
`"stable_diffusion"`. -/
theorem generate_video_url_guard_spec (video_server orientation : String)
    (env : String → Option (List Video)) :
    generate_video_url .pnone video_server orientation env = [] ∧
    generate_video_url (.plist []) video_server orientation env = [] ∧
    (∀ v, isListPV v = false → generate_video_url v video_server orientation env = []) ∧
    (video_server ≠ "pexel" → video_server ≠ "stable_diffusion" →
      ∀ v, generate_video_url v video_server orientation env = []) := by
  refine ⟨rfl, rfl, ?_, ?_⟩
  · intro v hv
    cases v with
    | plist xs => simp [isListPV] at hv
    | pnone => rfl
    | pbool b => rfl
    | pnum q => rfl
    | pstr s => rfl
    | ptuple xs => rfl
  · intro h1 h2 v
    cases v with
    | plist xs =>
      cases xs with
      | nil => rfl
      | cons x rest =>
        rw [generate_video_url, if_neg h1, if_neg h2]
    | pnone => rfl
    | pbool b => rfl
    | pnum q => rfl
    | pstr s => rfl
    | ptuple xs => rfl

/-- Witness for C5: a non-empty list input with an unknown video server
yields the empty list. -/
theorem generate_video_url_guard_spec_witness :
    generate_video_url (.plist [.pnum 1]) "other" "portrait" (fun _ => none) = [] :=
  (generate_video_url_guard_spec "other" "portrait" (fun _ => none)).2.2.2
    (by decide) (by decide) (.plist [.pnum 1])

/-! ### C10 -/

/-- C10: the `safe_unpack` of `app.py` and the `safe_unpack` of
`video_search_query_generator.py` are extensionally equal: for every data
value, expected count and default list they return the same tuple, and
both handle `None` and non-iterable data by returning defaults or
`None`-padding rather than raising (the embeddings are total). -/
theorem safe_unpack_equivalence (data : PVal) (expected_count : Nat)
    (default_values : Option (List PVal)) :
    app_safe_unpack data expected_count default_values
      = vsq_safe_unpack data expected_count default_values := by
  cases data <;> rfl

/-! ### C6 (corrected) -/

theorem extractScriptField_truthy {x j : Json} (h : extractScriptField x = some j) :
    jsonTruthy j = true := by
  cases x with
  | jobj fields =>
    rw [extractScriptField] at h
    by_cases hg : jsonTruthy (objGet fields "script" (.jstr "")) = true
    · rw [if_pos hg] at h
      rw [← Option.some_injective _ h]
      exact hg
    · rw [if_neg hg] at h
      exact absurd h (by simp)
  | null => exact absurd h (by simp [extractScriptField])
  | jbool b => exact absurd h (by simp [extractScriptField])
  | jnum q => exact absurd h (by simp [extractScriptField])
  | jstr s => exact absurd h (by simp [extractScriptField])
  | jarr xs => exact absurd h (by simp [extractScriptField])

theorem capAfterQuote_ne {r : List Char} {s : String} (h : capAfterQuote r = some s) :
    s ≠ "" := by
  unfold capAfterQuote at h
  split at h
  · exact absurd h (by simp)
  · exact absurd h (by simp)
  · rename_i c cs d ds _ _
    split at h
    · have hs : String.mk (c :: cs) = s := Option.some_injective _ h
      intro hemp
      rw [hemp] at hs
      have hd := congrArg String.data hs
      simp at hd
    · exact absurd h (by simp)

theorem matchScriptAt_ne {cs : List Char} {s : String} (h : matchScriptAt cs = some s) :
    s ≠ "" := by
  unfold matchScriptAt at h
  split at h
  · split at h
    · exact absurd h (by simp)
    · split at h
      · exact capAfterQuote_ne h
      · exact absurd h (by simp)
  · exact absurd h (by simp)

theorem reSearchScript_ne {s : String} :
    ∀ {cs : List Char}, reSearchScript cs = some s → s ≠ "" := by
  intro cs
  induction cs with
  | nil => intro h; exact absurd h (by simp [reSearchScript])
  | cons c rest ih =>
    intro h
    rw [reSearchScript] at h
    cases hm : matchScriptAt (c :: rest) with
    | some s2 =>
      rw [hm] at h
      rw [← Option.some_injective _ h]
      exact matchScriptAt_ne hm
    | none =>
      rw [hm] at h
      exact ih h

theorem jsonTruthy_to_str_ne {j : Json} (h : jsonTruthy j = true) :
    ∀ s, j = .jstr s → s ≠ "" := by
  intro s hs hemp
  subst hs
  subst hemp
  simp [jsonTruthy] at h

theorem scriptFromContent_some_truthy {env : ScriptEnv} {raw : String} {j : Json}
    (h : scriptFromContent env raw = some j) : jsonTruthy j = true := by
  unfold scriptFromContent at h
  cases hp1 : env.jsonParse (pystrip raw) with
  | some j0 =>
    rw [hp1] at h
    exact extractScriptField_truthy h
  | none =>
    rw [hp1] at h
    cases hb : (env.jsonParse (fix_json_response (pystrip raw))).bind extractScriptField with
    | some v =>
      rw [hb] at h
      obtain ⟨j2, _, hex⟩ := Option.bind_eq_some.mp hb
      rw [← Option.some_injective _ h]
      exact extractScriptField_truthy hex
    | none =>
      rw [hb] at h
      cases hre : reSearchScript (pystrip raw).data with
      | some cap =>
        rw [hre] at h
        rw [← Option.some_injective _ h]
        have hne := reSearchScript_ne hre
        simp [jsonTruthy, hne]
      | none =>
        rw [hre] at h
        exact absurd h (by simp)

/-- C6 (amended): `generate_script` returns `None`, never raising (the
embedding is total), when the `GROQ_API_KEY` is unset or at most 30
characters long, when the Groq import or client construction fails, and
when direct JSON parsing, the `fix_json_response` repair and the regex
fallback all fail to recover a script; in every successful case it returns
a truthy value extracted from the response — a non-empty string whenever
that value is a string, but possibly a truthy non-string when the model's
`script` field holds one. -/
theorem generate_script_spec (env : ScriptEnv) :
    (env.groqKey = none → generate_script env = none) ∧
    (∀ k, env.groqKey = some k → k.length ≤ 30 → generate_script env = none) ∧
    (env.importOk = false → generate_script env = none) ∧
    (env.initOk = false → generate_script env = none) ∧
    (∀ raw, env.apiContent = some raw →
      env.jsonParse (pystrip raw) = none →
      (env.jsonParse (fix_json_response (pystrip raw))).bind extractScriptField = none →
      reSearchScript (pystrip raw).data = none →
      generate_script env = none) ∧
    (∀ j, generate_script env = some j →
      jsonTruthy j = true ∧ ∀ s, j = .jstr s → s ≠ "") := by
  refine ⟨?_, ?_, ?_, ?_, ?_, ?_⟩
  · intro h
    unfold generate_script
    rw [h]
    rfl
  · intro k hk hlen
    have hval : validate_groq_api env.groqKey = false := by
      rw [hk, validate_groq_api]
      by_cases hke : k = ""
      · rw [if_pos hke]
      · rw [if_neg hke, if_pos hlen]
    unfold generate_script
    rw [hval]
    rfl
  · intro h
    cases hv : validate_groq_api env.groqKey
    · unfold generate_script
      rw [hv]
      rfl
    · unfold generate_script
      rw [hv, h]
      rfl
  · intro h
    cases hv : validate_groq_api env.groqKey
    · unfold generate_script
      rw [hv]
      rfl
    · cases him : env.importOk
      · unfold generate_script
        rw [hv, him]
        rfl
      · unfold generate_script
        rw [hv, him, h]
        rfl
  · intro raw hraw hp1 hp2 hre
    cases hv : validate_groq_api env.groqKey
    · unfold generate_script
      rw [hv]
      rfl
    · cases him : env.importOk
      · unfold generate_script
        rw [hv, him]
        rfl
      · cases hin : env.initOk
        · unfold generate_script
          rw [hv, him, hin]
          rfl
        · unfold generate_script
          rw [hv, him, hin, hraw]
          show scriptFromContent env raw = none
          unfold scriptFromContent
          rw [hp1, hp2, hre]
  · intro j hj
    have hj2 := hj
    unfold generate_script at hj2
    cases hv : validate_groq_api env.groqKey
    · rw [hv] at hj2
      simp at hj2
    · rw [hv] at hj2
      cases him : env.importOk
      · rw [him] at hj2
        simp at hj2
      · rw [him] at hj2
        cases hin : env.initOk
        · rw [hin] at hj2
          simp at hj2
        · rw [hin] at hj2
          cases hac : env.apiContent with
          | none =>
            rw [hac] at hj2
            simp at hj2
          | some raw =>
            rw [hac] at hj2
            have hj3 : scriptFromContent env raw = some j := hj2
            have htr := scriptFromContent_some_truthy hj3
            exact ⟨htr, jsonTruthy_to_str_ne htr⟩

/-- Witness for the amended C6: an unset key yields `None`. -/
theorem generate_script_spec_witness :
    generate_script ⟨none, true, true, none, fun _ => none⟩ = none :=
  (generate_script_spec ⟨none, true, true, none, fun _ => none⟩).1 rfl

/-- Counterexample to C6 as stated: with a valid key and a response whose
`script` field is the (truthy) number 5, `generate_script` returns that
number, which is not a non-empty string. -/
theorem generate_script_counterexample :
    generate_script scriptEnvNum = some (.jnum 5) ∧
    ¬ ∃ s, Json.jnum 5 = Json.jstr s ∧ s ≠ "" := by
  constructor
  · rfl
  · rintro ⟨s, hs, hne⟩
    exact Json.noConfusion hs

/-! ### C7 -/

theorem renderGate_cases (bg : List PVal) :
    renderGate bg = [] ∨ renderGate bg = [Stage.render] := by
  cases bg with
  | nil => exact Or.inl rfl
  | cons b bs =>
    rw [renderGate]
    cases hm : merge_empty_intervals (.plist (b :: bs)) with
    | nil => exact Or.inl rfl
    | cons m ms => exact Or.inr rfl

/-- C7: `main` executes the pipeline stages in the fixed order script
generation, narration synthesis, caption transcription, search-term
generation, stock-video lookup, composite rendering — every trace is a
prefix of that chain — and a later stage is never invoked when an earlier
stage reports failure: a falsy script stops after the script stage, a
false audio result after the audio stage, empty captions after the
caption stage, and falsy search terms after the search stage.  A
`TypeError` raised by the script-preview slice (a truthy non-sequence
script) also ends the run right after the script stage, so the
progress clauses additionally assume the preview succeeds. -/
theorem main_pipeline_spec (env : MainEnv) :
    (∃ rest, mainTrace env ++ rest
      = [Stage.script, Stage.audio, Stage.captions, Stage.search, Stage.video,
         Stage.render]) ∧
    (scriptOk env = false → mainTrace env = [Stage.script]) ∧
    (scriptPreviewOk env = false → mainTrace env = [Stage.script]) ∧
    (scriptOk env = true → scriptPreviewOk env = true → env.audioR = false →
      mainTrace env = [Stage.script, Stage.audio]) ∧
    (scriptOk env = true → scriptPreviewOk env = true → env.audioR = true →
      env.captionsR = [] →
      mainTrace env = [Stage.script, Stage.audio, Stage.captions]) ∧
    (scriptOk env = true → scriptPreviewOk env = true → env.audioR = true →
      env.captionsR ≠ [] → pyTruthy (searchTermsPV env) = false →
      mainTrace env = [Stage.script, Stage.audio, Stage.captions, Stage.search]) := by
  refine ⟨?_, ?_, ?_, ?_, ?_, ?_⟩
  · unfold mainTrace
    cases hs : scriptOk env
    · exact ⟨[Stage.audio, Stage.captions, Stage.search, Stage.video, Stage.render], rfl⟩
    · cases hp : scriptPreviewOk env
      · exact ⟨[Stage.audio, Stage.captions, Stage.search, Stage.video, Stage.render],
          rfl⟩
      · cases ha : env.audioR
        · exact ⟨[Stage.captions, Stage.search, Stage.video, Stage.render], rfl⟩
        · cases hc : env.captionsR with
          | nil => exact ⟨[Stage.search, Stage.video, Stage.render], rfl⟩
          | cons c cs =>
            cases hsr : pyTruthy (searchTermsPV env)
            · exact ⟨[Stage.video, Stage.render], rfl⟩
            · rcases renderGate_cases
                  (generate_video_url (searchTermsPV env) "pexel" "portrait"
                    env.pexelsEnv) with
                hr | hr
              · exact ⟨[Stage.render], by rw [hr]; rfl⟩
              · exact ⟨[], by rw [hr]; rfl⟩
  · intro h
    unfold mainTrace
    rw [h]
    rfl
  · intro h
    unfold mainTrace
    cases hs : scriptOk env
    · rfl
    · rw [h]
      rfl
  · intro h1 h2 h3
    unfold mainTrace
    rw [h1, h2, h3]
    rfl
  · intro h1 h2 h3 h4
    unfold mainTrace
    rw [h1, h2, h3, h4]
    rfl
  · intro h1 h2 h3 h4 h5
    unfold mainTrace
    cases hc : env.captionsR with
    | nil => exact absurd hc h4
    | cons c cs =>
      rw [h1, h2, h3, h5]
      rfl

/-- Witness for C7: with a `None` script the trace is the script stage
alone. -/
theorem main_pipeline_spec_witness :
    mainTrace ⟨none, false, [], none, fun _ => none⟩ = [Stage.script] :=
  (main_pipeline_spec ⟨none, false, [], none, fun _ => none⟩).2.1 rfl

end StoryForge
